import Mathlib

/-!
Verification of the news-bot pipeline (`src/main.py`) against its
natural-language specification.

The embedding models Python strings as `List Char` (written `PyStr`),
the dedup cache (`sent_news_urls` set plus `sent_news_deque` deque) as a
structure over lists, and the per-article processing loop of
`send_daily_update` as a fold over the fetched article list.  The
messaging transport is modelled by an oracle `sendOk : Nat → PyStr → Bool`
that says whether the rich (MarkdownV2) send for a given chat and message
text succeeds; on failure the code sends a plain-text fallback.
-/

set_option maxRecDepth 4000
set_option linter.unusedSectionVars false
set_option linter.unreachableTactic false
set_option linter.unusedTactic false

abbrev PyStr := List Char

/-- Python's `needle in haystack` substring test on strings. -/
def isSub (p t : PyStr) : Bool := decide (p <:+: t)

/-- Python's `str.lower()` (character-wise lowering; the keyword lists and
messages in the program are ASCII, where this agrees with Python). -/
def pyLower (s : PyStr) : PyStr := s.map Char.toLower

/-! ## The dedup cache (`src/main.py` lines 28-29 and 46-52)

```python
sent_news_deque = deque(maxlen=500)
sent_news_urls = set()

def remember_url(url):
    if url not in sent_news_urls:
        sent_news_urls.add(url)
        sent_news_deque.append(url)
        if len(sent_news_deque) == sent_news_deque.maxlen:
            oldest = sent_news_deque.popleft()
            sent_news_urls.discard(oldest)
```

The set is modelled as a duplicate-free list (membership, add, discard),
the deque as a list whose head is the oldest element.  The state is
generic in the identifier type: the program stores article URLs
(`a.get("url")`, which may be `None`, hence `Option PyStr` downstream),
and the claims about the cache itself hold for any identifier type with
decidable equality. -/

structure DedupState (α : Type) where
  sent_news_urls : List α
  sent_news_deque : List α
  maxlen : Nat
deriving DecidableEq, Repr

variable {α : Type} [DecidableEq α]

/-- Python `collections.deque(maxlen=m).append(x)`: when the deque is already at
`maxlen`, appending silently drops the oldest (leftmost) element. -/
def deque_append (dq : List α) (maxlen : Nat) (x : α) : List α :=
  if dq.length = maxlen then dq.tail ++ [x] else dq ++ [x]

def remember_url (c : DedupState α) (url : α) : DedupState α :=
  if url ∈ c.sent_news_urls then c
  else
    let urls := c.sent_news_urls ++ [url]
    let dq := deque_append c.sent_news_deque c.maxlen url
    if dq.length = c.maxlen then
      match dq with
      | [] => DedupState.mk urls [] c.maxlen
      | oldest :: rest => DedupState.mk (urls.erase oldest) rest c.maxlen
    else DedupState.mk urls dq c.maxlen

/-- The cache as initialised at module load: both containers empty,
`maxlen=500`. -/
def initialCache (α : Type) : DedupState α := DedupState.mk [] [] 500

/-- Folding `remember_url` over a list of identifiers. -/
def rememberAll (c : DedupState α) (ids : List α) : DedupState α :=
  ids.foldl remember_url c

/-! ### Invariants of the dedup cache

All states reachable from the initial cache satisfy: the lookup set holds
exactly the deque's elements (in our list model the two lists are equal),
the deque is duplicate-free, and its length stays strictly below
`maxlen` (the code evicts at the very moment the deque reaches
`maxlen`, so a `maxlen` of 500 in fact caps the retained history at 499
identifiers). -/

def CacheInv (c : DedupState α) : Prop :=
  c.sent_news_urls = c.sent_news_deque ∧ c.sent_news_deque.Nodup ∧
    c.sent_news_deque.length < c.maxlen

lemma cacheInv_initial : CacheInv (initialCache α) := by
  refine ⟨rfl, List.nodup_nil, ?_⟩
  simp [initialCache]

/-- Calling `remember_url` on an already-present identifier leaves the cache
untouched (the body is guarded by `if url not in sent_news_urls`). -/
lemma remember_mem (c : DedupState α) (x : α) (hx : x ∈ c.sent_news_urls) :
    remember_url c x = c := by
  unfold remember_url
  rw [if_pos hx]

/-! ### Exact trace of inserting `n` distinct fresh identifiers

Inserting `0, 1, …, n-1` into the initial cache leaves the window
`[n-499, …, n-1]` once `n` reaches 500 (the eviction at the moment the
deque reaches 500 caps retention at 499 identifiers). -/

lemma remember_fresh_small (c : DedupState α) (x : α) (hx : x ∉ c.sent_news_urls)
    (h : c.sent_news_deque.length + 1 < c.maxlen) :
    remember_url c x =
      DedupState.mk (c.sent_news_urls ++ [x]) (c.sent_news_deque ++ [x]) c.maxlen := by
  have h1 : ¬ c.sent_news_deque.length = c.maxlen := by omega
  have h2 : ¬ c.sent_news_deque.length + 1 = c.maxlen := by omega
  simp [remember_url, deque_append, hx, h1, h2]

lemma remember_fresh_full (u t : List α) (oldest : α) (x : α) (m : Nat)
    (hx : x ∉ u) (hm : t.length + 2 = m) :
    remember_url (DedupState.mk u (oldest :: t) m) x =
      DedupState.mk ((u ++ [x]).erase oldest) (t ++ [x]) m := by
  have h1 : ¬ (t.length + 1 = m) := by omega
  simp only [remember_url, deque_append]
  rw [if_neg hx]
  simp only [List.length_cons, h1, if_false, List.cons_append]
  rw [if_pos (by simp; omega)]

lemma cacheInv_remember (c : DedupState α) (x : α) (h : CacheInv c) :
    CacheInv (remember_url c x) := by
  obtain ⟨hset, hnd, hlen⟩ := h
  by_cases hx : x ∈ c.sent_news_urls
  · rw [remember_mem c x hx]
    exact ⟨hset, hnd, hlen⟩
  · have hxdq : x ∉ c.sent_news_deque := by rw [← hset]; exact hx
    by_cases hfull : c.sent_news_deque.length + 1 = c.maxlen
    · cases hdq : c.sent_news_deque with
      | nil =>
          -- deque empty and maxlen = 1: the new id is admitted and at once evicted
          have hm : c.maxlen = 1 := by rw [hdq] at hfull; simpa using hfull.symm
          have hu : c.sent_news_urls = [] := by rw [hset, hdq]
          unfold remember_url deque_append
          rw [if_neg hx]
          simp [hu, hdq, hm]
          exact ⟨rfl, List.nodup_nil, Nat.zero_lt_one⟩
      | cons oldest t =>
          have hu : c.sent_news_urls = oldest :: t := by rw [hset, hdq]
          have hc : c = DedupState.mk (oldest :: t) (oldest :: t) c.maxlen := by
            cases c
            simp_all
          rw [hc, remember_fresh_full (oldest :: t) t oldest x c.maxlen
            (by rw [← hu]; exact hx) (by rw [hdq] at hfull; simpa using hfull)]
          have hxt : x ∉ t ∧ x ≠ oldest := by
            rw [hdq] at hxdq
            simp at hxdq
            exact ⟨hxdq.2, hxdq.1⟩
          have hnd' : (t ++ [x]).Nodup := by
            rw [hdq] at hnd
            exact List.Nodup.append hnd.of_cons (List.nodup_singleton x)
              (by simpa using fun hmem => (hxt.1 ·) hmem)
          refine ⟨?_, hnd', ?_⟩
          · rw [List.cons_append, List.erase_cons_head]
          · rw [hdq] at hfull
            simp at hfull ⊢
            omega
    · have hlt : c.sent_news_deque.length + 1 < c.maxlen := by omega
      rw [remember_fresh_small c x hx hlt]
      refine ⟨by rw [hset], ?_, by simp; omega⟩
      exact List.Nodup.append hnd (List.nodup_singleton x) (by simpa using hxdq)

lemma cacheInv_rememberAll (c : DedupState α) (ids : List α) (h : CacheInv c) :
    CacheInv (rememberAll c ids) := by
  induction ids generalizing c with
  | nil => exact h
  | cons y ys ih => exact ih _ (cacheInv_remember c y h)

lemma trace_range :
    ∀ n : Nat, rememberAll (initialCache Nat) (List.range n) =
      if n < 500
      then DedupState.mk (List.range n) (List.range n) 500
      else DedupState.mk (List.range' (n - 499) 499) (List.range' (n - 499) 499) 500 := by
  intro n
  induction n with
  | zero => simp [rememberAll, initialCache]
  | succ n ih =>
      have hstep : rememberAll (initialCache Nat) (List.range (n + 1))
          = remember_url (rememberAll (initialCache Nat) (List.range n)) n := by
        rw [List.range_succ]
        unfold rememberAll
        rw [List.foldl_append]
        rfl
      rw [hstep, ih]
      by_cases h1 : n + 1 < 500
      · rw [if_pos (by omega), if_pos h1]
        rw [remember_fresh_small _ n (by simp) (by simp; omega)]
        rw [← List.range_succ]
      · by_cases h2 : n < 500
        · -- n = 499: the insert that makes the deque reach maxlen and evicts 0
          have hn : n = 499 := by omega
          subst hn
          rw [if_pos h2, if_neg (by omega)]
          have hsplit : List.range 499 = 0 :: List.range' 1 498 := by
            rw [List.range_eq_range']
            exact List.range'_succ 0 498 1
          rw [hsplit,
            remember_fresh_full (0 :: List.range' 1 498) (List.range' 1 498) 0 499 500
              (by rw [← hsplit]; simp) (by simp)]
          have he : ((0 :: List.range' 1 498) ++ [499]).erase 0
              = List.range' 1 498 ++ [499] := by
            rw [List.cons_append, List.erase_cons_head]
          have hc : List.range' 1 498 ++ [499] = List.range' 1 499 := by
            have h := @List.range'_concat 1 1 498
            simp at h
            exact h.symm
          rw [he, hc]
        · -- n ≥ 500: steady state, each insert evicts the current oldest id
          rw [if_neg h2, if_neg (by omega)]
          have hsplit : List.range' (n - 499) 499
              = (n - 499) :: List.range' (n - 498) 498 := by
            have h := List.range'_succ (n - 499) 498 1
            rw [show n - 499 + 1 = n - 498 from by omega] at h
            exact h
          have hfresh : n ∉ List.range' (n - 499) 499 := by
            rw [List.mem_range'_1]
            omega
          rw [hsplit,
            remember_fresh_full _ (List.range' (n - 498) 498) (n - 499) n 500
              (by rw [← hsplit]; exact hfresh) (by simp)]
          have he : (((n - 499) :: List.range' (n - 498) 498) ++ [n]).erase (n - 499)
              = List.range' (n - 498) 498 ++ [n] := by
            rw [List.cons_append, List.erase_cons_head]
          have hc : List.range' (n - 498) 498 ++ [n] = List.range' (n - 498) 499 := by
            have h := @List.range'_concat 1 (n - 498) 498
            rw [show n - 498 + 1 * 498 = n from by omega] at h
            exact h.symm
          rw [he, hc, show n + 1 - 499 = n - 498 from by omega]

/-! ## Classification (`src/main.py` lines 67-96)

Keyword tables and `classify_article` exactly as in the source.  Note
that the source lowercases the article text and the company names and
country keywords, but compares the crypto and economy keywords verbatim
(`keyword in text`), so mixed-case entries of those two lists can never
match the lowercased text. -/

def TOP_COMPANIES : List PyStr :=
  ["Apple".data, "Microsoft".data, "Amazon".data, "Tesla".data, "Google".data,
   "Meta".data, "Nvidia".data, "Netflix".data, "Intel".data, "IBM".data]

def CRYPTO_KEYWORDS : List PyStr :=
  ["crypto".data, "bitcoin".data, "ethereum".data, "blockchain".data, "altcoin".data,
   "Web3".data, "DeFi".data, "Binance".data, "Coinbase".data]

def ECONOMY_KEYWORDS : List PyStr :=
  ["interest rate".data, "GDP".data, "inflation".data, "recession".data,
   "central bank".data, "Fed".data, "RBI".data, "tariff".data, "fiscal".data]

/-- The `COUNTRY_KEYWORDS` dict; Python dicts preserve insertion order and
the loop in the economy branch takes the first matching entry. -/
def COUNTRY_KEYWORDS : List (PyStr × List PyStr) :=
  [("🇺🇸".data, ["US".data, "America".data, "United States".data, "Fed".data]),
   ("🇨🇳".data, ["China".data, "Beijing".data]),
   ("🇯🇵".data, ["Japan".data, "Tokyo".data, "Yen".data]),
   ("🇩🇪".data, ["Germany".data, "Berlin".data, "Bundesbank".data]),
   ("🇮🇳".data, ["India".data, "Delhi".data, "Mumbai".data, "RBI".data]),
   ("🇬🇧".data, ["UK".data, "Britain".data, "London".data, "BOE".data]),
   ("🇫🇷".data, ["France".data, "Paris".data]),
   ("🇮🇹".data, ["Italy".data, "Rome".data]),
   ("🇧🇷".data, ["Brazil".data, "Brasilia".data, "Bovespa".data]),
   ("🇨🇦".data, ["Canada".data, "Ottawa".data])]

def classify_article (title description : PyStr) : PyStr :=
  let text := pyLower (title ++ [' '] ++ description)
  if TOP_COMPANIES.any (fun company => isSub (pyLower company) text) then
    "🏢 *Top Company News*".data
  else if CRYPTO_KEYWORDS.any (fun keyword => isSub keyword text) then
    "🪙 *Crypto Market*".data
  else if ECONOMY_KEYWORDS.any (fun keyword => isSub keyword text) then
    match COUNTRY_KEYWORDS.find? (fun p => p.2.any (fun k => isSub (pyLower k) text)) with
    | some p => p.1 ++ " *Economic News*".data
    | none => "🌍 *Global/Economic*".data
  else "📰 *Other News*".data

/-! ## MarkdownV2 escaping (`src/main.py` lines 54-64)

```python
def safe_md(text: str) -> str:
    if not text:
        return ""
    escape_chars = r"_*[]()~`>#+=|{}.!"
    text = re.sub(f"([{re.escape(escape_chars)}])", r"\\\1", text)
    return text.replace("-", "\\-")
```

The regex is a single character class, so the `re.sub` pass rewrites each
character of `escape_chars` to a backslash followed by that character,
in one left-to-right pass over the input; `str.replace` with the
one-character needle `"-"` likewise rewrites each `'-'`. -/

/-- The character class of the regex pass (17 characters; `-` is handled
by the separate `str.replace` call). -/
def escape_chars : PyStr :=
  ['_', '*', '[', ']', '(', ')', '~', '\x60', '>', '#', '+', '=', '|', '\x7b', '\x7d', '.', '!']

/-- Python `str.replace(old, new)` specialised to a one-character `old`:
rewrite every occurrence of `old` to `rep`. -/
def charReplace (old : Char) (rep : PyStr) (s : PyStr) : PyStr :=
  s.flatMap (fun c => if c = old then rep else [c])

def safe_md (text : PyStr) : PyStr :=
  if text.isEmpty then []
  else
    charReplace '-' ('\\' :: '-' :: [])
      (text.flatMap (fun c => if c ∈ escape_chars then '\\' :: c :: [] else [c]))

/-! Claim-side vocabulary for the escaping contract: the full reserved
MarkdownV2 punctuation set named by the specification, the one-character
escape table it induces, and a scanner checking that every reserved
character in a string is immediately preceded by a backslash. -/

/-- The reserved MarkdownV2 punctuation set of the claim:
`_ * [ ] ( ) ~ ` > # + - = | { } . !`. -/
def reservedMd : PyStr :=
  ['_', '*', '[', ']', '(', ')', '~', '\x60', '>', '#', '+', '-', '=', '|', '\x7b', '\x7d', '.', '!']

/-- Escape table induced by a single application of `safe_md`: each
reserved character receives exactly one backslash. -/
def escMd (c : Char) : PyStr :=
  if c ∈ reservedMd then '\\' :: c :: [] else [c]

/-- Scanner `escOkAux prev s`: it scans `s` and checks that every character of the
reserved set is immediately preceded by a backslash (`prev` is the
character just before `s`, if any). -/
def escOkAux (prev : Option Char) : PyStr → Bool
  | [] => true
  | c :: rest =>
      (!(decide (c ∈ reservedMd)) || decide (prev = some '\\')) && escOkAux (some c) rest

/-- The last element of `a`, or `p` when `a` is empty. -/
def lastD (a : PyStr) (p : Option Char) : Option Char :=
  match a with
  | [] => p
  | c :: rest => lastD rest (some c)

lemma escOkAux_append (a b : PyStr) (p : Option Char) :
    escOkAux p (a ++ b) = (escOkAux p a && escOkAux (lastD a p) b) := by
  induction a generalizing p with
  | nil => simp [escOkAux, lastD]
  | cons c rest ih =>
      simp only [List.cons_append, escOkAux, lastD, Bool.and_assoc]
      rw [show (rest.append b : PyStr) = rest ++ b from rfl, ih (some c)]

/-- The two passes of `safe_md` together act as the one-pass,
per-character escape table `escMd`: the first pass inserts backslashes
(which the character class does not contain) and leaves `-` alone, and
the second pass touches only the `-` characters, which the first pass
neither produced nor consumed. -/
lemma safe_md_eq_flatMap (s : PyStr) : safe_md s = s.flatMap escMd := by
  unfold safe_md
  cases s with
  | nil => simp
  | cons c rest =>
      simp only [List.isEmpty_cons, if_false, Bool.false_eq_true]
      generalize (c :: rest : PyStr) = t
      induction t with
      | nil => simp [charReplace]
      | cons d t iht =>
          simp only [List.flatMap_cons]
          unfold charReplace at iht ⊢
          rw [List.flatMap_append, iht]
          congr 1
          by_cases hd : d ∈ escape_chars
          · have hne : d ≠ '-' := by
              intro h
              rw [h] at hd
              exact absurd hd (by decide)
            have hr : d ∈ reservedMd := by
              revert hd
              have : ∀ x, x ∈ escape_chars → x ∈ reservedMd := by decide
              exact this d
            simp [hd, hr, escMd, hne]
          · by_cases hdash : d = '-'
            · subst hdash
              simp [hd, escMd, charReplace]
              decide
            · have hr : d ∉ reservedMd := by
                revert hd hdash
                have : ∀ x, x ∈ reservedMd → x ∈ escape_chars ∨ x = '-' := by decide
                intro hd hdash hmem
                rcases this d hmem with h | h
                · exact hd h
                · exact hdash h
              simp [hd, hr, escMd, charReplace, hdash]

lemma escOk_flatMap (s : PyStr) : ∀ p, escOkAux p (s.flatMap escMd) = true := by
  induction s with
  | nil => intro p; simp [escOkAux]
  | cons c rest ih =>
      intro p
      simp only [List.flatMap_cons]
      rw [escOkAux_append]
      have hbs : '\\' ∉ reservedMd := by decide
      have hlast : lastD (escMd c) p = some c := by
        unfold escMd
        by_cases h : c ∈ reservedMd
        · simp [h, lastD]
        · simp [h, lastD]
      have hblock : escOkAux p (escMd c) = true := by
        unfold escMd
        by_cases h : c ∈ reservedMd
        · simp [h, escOkAux, hbs]
        · simp [h, escOkAux]
      rw [hblock, hlast, ih (some c)]
      rfl

lemma count_backslash_flatMap (s : PyStr) :
    List.count '\\' (s.flatMap escMd) =
      List.count '\\' s + s.countP (fun c => decide (c ∈ reservedMd)) := by
  induction s with
  | nil => simp
  | cons c rest ih =>
      have hblock : List.count '\\' (escMd c)
          = (if c = '\\' then 1 else 0) + (if c ∈ reservedMd then 1 else 0) := by
        unfold escMd
        by_cases h : c ∈ reservedMd
        · have hc : ¬ (c = '\\') := fun heq => absurd (heq ▸ h) (by decide)
          simp [h, hc, List.count_cons]
        · have hbs : '\\' ∉ reservedMd := by decide
          by_cases hc : c = '\\' <;> simp [h, hc, hbs, List.count_cons]
      simp only [List.flatMap_cons, List.count_append, List.count_cons, List.countP_cons, ih,
        hblock]
      by_cases h : c ∈ reservedMd <;> by_cases hc : c = '\\' <;> simp [h, hc] <;> omega

/-! ## The fetch-and-send pipeline (`src/main.py` lines 99-198, 236-244)

An `Article` models one record of the news API's `articles` array; every
field is optional, and the loop body applies the same defaults as the
Python `a.get(...)` calls.  The messaging transport is an oracle
`sendOk : Nat → PyStr → Bool` deciding whether the rich MarkdownV2 send
of a given message to a given chat succeeds (on failure the code logs,
sends a plain-text fallback, and — notably — does not remember the URL).
Observable behaviour is recorded as a list of events. -/

structure Article where
  url : Option PyStr
  title : Option PyStr
  description : Option PyStr
  content : Option PyStr
  publishedAt : Option PyStr
  sourceName : Option PyStr
deriving DecidableEq, Repr

/-- Field default `a.get("title", "No Title")`. -/
def title_raw (a : Article) : PyStr := a.title.getD ("No Title".data)

/-- Field default `a.get("description", "")`. -/
def description_raw (a : Article) : PyStr := a.description.getD []

/-- Field default `a.get("content", "")`. -/
def content_raw (a : Article) : PyStr := a.content.getD []

/-- Field default `a.get("publishedAt", "")`. -/
def published_raw (a : Article) : PyStr := a.publishedAt.getD []

/-- Field default `a.get("source", \x7b\x7d).get("name", "")`. -/
def source_raw (a : Article) : PyStr := a.sourceName.getD []

def ALLOWED_CATEGORIES : List PyStr :=
  ["🏢 *Top Company News*".data, "🪙 *Crypto Market*".data, "🌍 *Global/Economic*".data,
   "🇺🇸 *Economic News*".data, "🇨🇳 *Economic News*".data, "🇯🇵 *Economic News*".data,
   "🇩🇪 *Economic News*".data, "🇮🇳 *Economic News*".data, "🇬🇧 *Economic News*".data,
   "🇫🇷 *Economic News*".data, "🇮🇹 *Economic News*".data, "🇧🇷 *Economic News*".data,
   "🇨🇦 *Economic News*".data]

def BANNED_SOURCES : List PyStr :=
  ["slickdeals".data, "buzzfeed".data, "espn".data, "goal.com".data, "vogue".data, "elle".data]

/-- The characters Python's no-argument `str.split()` and `str.strip()`
treat as whitespace (ASCII part, which is all the pipeline meets). -/
def pyIsSpace (c : Char) : Bool :=
  c == ' ' || c == '\t' || c == '\n' || c == '\r' || c == '\x0b' || c == '\x0c'

/-- Python `str.split()` with no argument: split on whitespace runs,
discarding empty fields. -/
def pySplit (s : PyStr) : List PyStr :=
  (List.splitOnP pyIsSpace s).filter (fun w => !w.isEmpty)

/-- Python `str.strip()`: drop leading and trailing whitespace. -/
def pyStrip (s : PyStr) : PyStr :=
  ((s.dropWhile pyIsSpace).reverse.dropWhile pyIsSpace).reverse

/-- Python `" ".join(ws)`. -/
def spaceJoin (ws : List PyStr) : PyStr := List.intercalate ([' ']) ws

/-- Source line `words = full_text.split()` applied to the stripped concatenation of description and content. -/
def words_of (a : Article) : List PyStr :=
  pySplit (pyStrip (description_raw a ++ [' '] ++ content_raw a))

/-- Source line `summary_raw = " ".join(words[:100]) + ("..." if len(words) > 100 else "")`. -/
def summary_raw_of (a : Article) : PyStr :=
  spaceJoin ((words_of a).take 100) ++
    (if 100 < (words_of a).length then "...".data else [])

/-- The origin-flag loop over `COUNTRY_KEYWORDS` (default `🌍`). -/
def origin_flag_of (a : Article) : PyStr :=
  let text := pyLower (title_raw a ++ [' '] ++ description_raw a)
  match COUNTRY_KEYWORDS.find? (fun p => p.2.any (fun k => isSub (pyLower k) text)) with
  | some p => p.1
  | none => "🌍".data

/-- Timestamp formatting `safe_md(published.replace("T", " ").replace("Z", "")[:16])`. -/
def published_time_of (a : Article) : PyStr :=
  safe_md ((charReplace 'Z' [] (charReplace 'T' ([' ']) (published_raw a))).take 16)

/-- The four-line MarkdownV2 message assembled in the loop body. -/
def message_of (a : Article) : PyStr :=
  origin_flag_of a ++ " ".data
    ++ safe_md (classify_article (title_raw a) (description_raw a))
    ++ "\n📌 *".data ++ safe_md (title_raw a)
    ++ "*\n📰 _".data ++ safe_md (source_raw a)
    ++ "_ \\| 🕒 ".data ++ published_time_of a
    ++ "\n\n🧠 *Summary:* ".data ++ safe_md (summary_raw_of a)

/-- Fallback text `title_raw + "\n\n" + summary_raw` sent without markup when
the rich send raises. -/
def fallback_of (a : Article) : PyStr :=
  title_raw a ++ "\n\n".data ++ summary_raw_of a

/-- Observable transport events of a run. -/
inductive Ev where
  | fetched : Ev
  | noNews : Nat → Ev
  | sentRich : Nat → PyStr → Ev
  | sentFallback : Nat → PyStr → Ev
deriving DecidableEq, Repr

def Ev.isFetch : Ev → Bool
  | Ev.fetched => true
  | _ => false

def Ev.isDispatchTo (chat : Nat) : Ev → Bool
  | Ev.sentRich c _ => c == chat
  | Ev.sentFallback c _ => c == chat
  | _ => false

abbrev PipeState := DedupState (Option PyStr) × List Ev

/-- The body of the `for a in articles:` loop (lines 135-195): the
guards fire in source order (seen-check, banned source, category
allowlist, minimum word count), then the rich send is attempted; on
success the URL is remembered, on failure the plain fallback is sent and
nothing is remembered. -/
def processArticle (chat : Nat) (sendOk : Nat → PyStr → Bool)
    (s : PipeState) (a : Article) : PipeState :=
  if a.url ∈ s.1.sent_news_urls then s
  else if BANNED_SOURCES.any (fun bad => isSub bad (pyLower (source_raw a))) then s
  else if classify_article (title_raw a) (description_raw a) ∉ ALLOWED_CATEGORIES then s
  else if (words_of a).length < 10 then s
  else if sendOk chat (message_of a) then
    (remember_url s.1 a.url, s.2 ++ [Ev.sentRich chat (message_of a)])
  else (s.1, s.2 ++ [Ev.sentFallback chat (fallback_of a)])

/-- One call of `send_daily_update(chat_id)`: one API fetch (whose result
is the `articles` argument), the `⚠️ No new news` message when the batch
is empty, otherwise the per-article loop. -/
def send_daily_update (chat : Nat) (articles : List Article)
    (sendOk : Nat → PyStr → Bool) (c : DedupState (Option PyStr)) : PipeState :=
  if articles.isEmpty then (c, [Ev.fetched, Ev.noNews chat])
  else List.foldl (processArticle chat sendOk) (c, [Ev.fetched]) articles

/-- One iteration of the `for user_id in subscribed_users:` loop of
`scheduled_job`: each subscriber gets their own `send_daily_update`
call (hence their own fetch), against the shared cache. -/
def cycleStep (articles : List Article) (sendOk : Nat → PyStr → Bool)
    (s : PipeState) (u : Nat) : PipeState :=
  ((send_daily_update u articles sendOk s.1).1,
    s.2 ++ (send_daily_update u articles sendOk s.1).2)

/-- One pass of the scheduled loop body of `scheduled_job` (lines
236-244), with the API returning `articles` to each per-user call. -/
def scheduled_cycle (users : List Nat) (articles : List Article)
    (sendOk : Nat → PyStr → Bool) (c : DedupState (Option PyStr)) : PipeState :=
  List.foldl (cycleStep articles sendOk) (c, []) users

/-- A concrete well-formed article used by the concrete runs below. -/
def goodArticle : Article :=
  Article.mk (some ("https://x/1".data)) (some ("Apple says hi".data))
    (some ("a b c d e f g h i j".data)) (some [])
    (some ("2026-01-01T00:00:00Z".data)) (some ("Reuters".data))

example : classify_article (title_raw goodArticle) (description_raw goodArticle)
    = "🏢 *Top Company News*".data := by decide
example : (words_of goodArticle).length = 10 := by decide

/-! ### Structural lemmas about the loop body -/

lemma processArticle_skip_seen (chat : Nat) (sendOk : Nat → PyStr → Bool)
    (s : PipeState) (a : Article) (h : a.url ∈ s.1.sent_news_urls) :
    processArticle chat sendOk s a = s := by
  unfold processArticle
  rw [if_pos h]

lemma processArticle_accept (chat : Nat) (sendOk : Nat → PyStr → Bool)
    (c : DedupState (Option PyStr)) (evs : List Ev) (a : Article)
    (hseen : a.url ∉ c.sent_news_urls)
    (hb : BANNED_SOURCES.any (fun bad => isSub bad (pyLower (source_raw a))) = false)
    (hcat : classify_article (title_raw a) (description_raw a) ∈ ALLOWED_CATEGORIES)
    (hw : ¬ (words_of a).length < 10)
    (hsend : sendOk chat (message_of a) = true) :
    processArticle chat sendOk (c, evs) a =
      (remember_url c a.url, evs ++ [Ev.sentRich chat (message_of a)]) := by
  unfold processArticle
  rw [if_neg hseen, if_neg (by rw [hb]; exact Bool.false_ne_true), if_neg (by simpa using hcat),
    if_neg hw, if_pos hsend]

lemma processArticle_fallback (chat : Nat) (sendOk : Nat → PyStr → Bool)
    (c : DedupState (Option PyStr)) (evs : List Ev) (a : Article)
    (hseen : a.url ∉ c.sent_news_urls)
    (hb : BANNED_SOURCES.any (fun bad => isSub bad (pyLower (source_raw a))) = false)
    (hcat : classify_article (title_raw a) (description_raw a) ∈ ALLOWED_CATEGORIES)
    (hw : ¬ (words_of a).length < 10)
    (hsend : sendOk chat (message_of a) = false) :
    processArticle chat sendOk (c, evs) a =
      (c, evs ++ [Ev.sentFallback chat (fallback_of a)]) := by
  unfold processArticle
  rw [if_neg hseen, if_neg (by rw [hb]; exact Bool.false_ne_true), if_neg (by simpa using hcat),
    if_neg hw, if_neg (by rw [hsend]; exact Bool.false_ne_true)]

lemma processArticle_tail (chat : Nat) (sendOk : Nat → PyStr → Bool)
    (s : PipeState) (a : Article) :
    ∃ t : List Ev, (processArticle chat sendOk s a).2 = s.2 ++ t ∧
      t.countP Ev.isFetch = 0 := by
  obtain ⟨c, evs⟩ := s
  unfold processArticle
  split_ifs
  all_goals first
    | (refine ⟨[], ?_, ?_⟩ <;> simp <;> done)
    | (refine ⟨[Ev.sentRich chat (message_of a)], ?_, ?_⟩ <;>
        simp [List.countP_cons, Ev.isFetch] <;> done)
    | (refine ⟨[Ev.sentFallback chat (fallback_of a)], ?_, ?_⟩ <;>
        simp [List.countP_cons, Ev.isFetch] <;> done)

lemma processArticle_cache (chat : Nat) (sendOk : Nat → PyStr → Bool)
    (s : PipeState) (a : Article) :
    (processArticle chat sendOk s a).1 = s.1 ∨
      (processArticle chat sendOk s a).1 = remember_url s.1 a.url := by
  obtain ⟨c, evs⟩ := s
  unfold processArticle
  repeat' split
  all_goals simp

/-! ### Fetch counting: one fetch per `send_daily_update` call -/

lemma fold_fetch_count (chat : Nat) (sendOk : Nat → PyStr → Bool) :
    ∀ (articles : List Article) (s : PipeState),
      ((List.foldl (processArticle chat sendOk) s articles).2).countP Ev.isFetch
        = s.2.countP Ev.isFetch := by
  intro articles
  induction articles with
  | nil => intro s; rfl
  | cons a rest ih =>
      intro s
      rw [List.foldl_cons, ih]
      obtain ⟨t, ht, htc⟩ := processArticle_tail chat sendOk s a
      rw [ht, List.countP_append, htc]
      omega

lemma send_fetch_count (chat : Nat) (articles : List Article)
    (sendOk : Nat → PyStr → Bool) (c : DedupState (Option PyStr)) :
    ((send_daily_update chat articles sendOk c).2).countP Ev.isFetch = 1 := by
  unfold send_daily_update
  by_cases h : articles.isEmpty
  · rw [if_pos h]
    simp [List.countP_cons, Ev.isFetch]
  · rw [if_neg h, fold_fetch_count]
    simp [List.countP_cons, Ev.isFetch]

lemma cycle_fetch_count_aux (articles : List Article) (sendOk : Nat → PyStr → Bool) :
    ∀ (users : List Nat) (s : PipeState),
      ((List.foldl (cycleStep articles sendOk) s users).2).countP Ev.isFetch
        = s.2.countP Ev.isFetch + users.length := by
  intro users
  induction users with
  | nil => intro s; simp
  | cons u rest ih =>
      intro s
      rw [List.foldl_cons, ih]
      unfold cycleStep
      rw [List.countP_append, send_fetch_count]
      simp
      omega

/-! ### Cache monotonicity while the deque stays below capacity -/

lemma remember_self_mem (c : DedupState α) (x : α)
    (h : c.sent_news_deque.length + 1 < c.maxlen) :
    x ∈ (remember_url c x).sent_news_urls := by
  by_cases hx : x ∈ c.sent_news_urls
  · rw [remember_mem c x hx]
    exact hx
  · rw [remember_fresh_small c x hx h]
    simp

lemma remember_maxlen (c : DedupState α) (x : α) :
    (remember_url c x).maxlen = c.maxlen := by
  by_cases hx : x ∈ c.sent_news_urls
  · rw [remember_mem c x hx]
  · simp only [remember_url, hx, if_false]
    split
    · split
      · rfl
      · rfl
    · rfl

lemma rememberAll_maxlen (c : DedupState α) (ids : List α) :
    (rememberAll c ids).maxlen = c.maxlen := by
  induction ids generalizing c with
  | nil => rfl
  | cons y ys ih =>
      rw [rememberAll, List.foldl_cons]
      exact ((ih (remember_url c y)).trans (remember_maxlen c y))

/-- As long as the deque has room for the whole remaining batch, the
lookup set only grows along the article loop: anything present before
stays present, the deque grows by at most one per article, and `maxlen`
never changes. -/
lemma fold_cache_mono (chat : Nat) (sendOk : Nat → PyStr → Bool) :
    ∀ (articles : List Article) (s : PipeState) (y : Option PyStr),
      y ∈ s.1.sent_news_urls →
      s.1.sent_news_deque.length + articles.length < s.1.maxlen →
      y ∈ (List.foldl (processArticle chat sendOk) s articles).1.sent_news_urls ∧
        (List.foldl (processArticle chat sendOk) s articles).1.sent_news_deque.length
          ≤ s.1.sent_news_deque.length + articles.length ∧
        (List.foldl (processArticle chat sendOk) s articles).1.maxlen = s.1.maxlen := by
  intro articles
  induction articles with
  | nil =>
      intro s y hy _
      exact ⟨hy, by simp, rfl⟩
  | cons a rest ih =>
      intro s y hy hroom
      rw [List.foldl_cons]
      have hstep : (processArticle chat sendOk s a).1 = s.1 ∨
          (processArticle chat sendOk s a).1 =
            DedupState.mk (s.1.sent_news_urls ++ [a.url])
              (s.1.sent_news_deque ++ [a.url]) s.1.maxlen := by
        rcases processArticle_cache chat sendOk s a with h | h
        · exact Or.inl h
        · by_cases hmem : a.url ∈ s.1.sent_news_urls
          · rw [remember_mem _ _ hmem] at h
            exact Or.inl h
          · rw [remember_fresh_small _ _ hmem (by simp at hroom ⊢; omega)] at h
            exact Or.inr h
      rcases hstep with h | h
      · have hrec := ih (processArticle chat sendOk s a) y (by rw [h]; exact hy)
          (by rw [h]; simp at hroom ⊢; omega)
        rw [h] at hrec
        obtain ⟨m1, m2, m3⟩ := hrec
        refine ⟨m1, by simp at hroom ⊢; omega, m3⟩
      · have hrec := ih (processArticle chat sendOk s a) y
          (by rw [h]; simp; exact Or.inl hy)
          (by rw [h]; simp at hroom ⊢; omega)
        rw [h] at hrec
        obtain ⟨m1, m2, m3⟩ := hrec
        simp at m2 m3
        refine ⟨m1, by simp at hroom ⊢; omega, by rw [m3]⟩

/-! ## Claim C1: eviction after 501 distinct inserts -/

/-- Claim C1, counterexample. The claim says that after inserting `C+1 = 501`
distinct identifiers into the empty capacity-500 cache, exactly the
first-inserted identifier is no longer seen and all 500 later ones are
still seen.  On the code this fails: inserting `0,…,500` also evicts
identifier `1` (the second insert), because `remember_url` already evicts
at the moment the deque's length reaches `maxlen`, i.e. at the 500th
insert. -/
theorem C1_counterexample :
    1 ∉ (rememberAll (initialCache Nat) (List.range 501)).sent_news_urls := by
  rw [trace_range 501, if_neg (by norm_num)]
  simp [List.mem_range'_1]

/-- Claim C1, amended. After 501 distinct inserts into the empty
capacity-500 cache, the two oldest identifiers (0 and 1) are gone and
exactly the 499 most recent identifiers 2,…,500 remain, in FIFO order:
eviction fires as soon as the queue reaches `C`, so the cache retains at
most `C-1` identifiers. -/
theorem C1_amended :
    (rememberAll (initialCache Nat) (List.range 501)).sent_news_deque
      = List.range' 2 499 ∧
    ∀ x : Nat, x ∈ (rememberAll (initialCache Nat) (List.range 501)).sent_news_urls ↔
      2 ≤ x ∧ x ≤ 500 := by
  rw [trace_range 501, if_neg (by norm_num)]
  constructor
  · rfl
  · intro x
    simp [List.mem_range'_1]
    omega

/-! ## Claim C8: `remember` is idempotent on present identifiers -/

/-- Claim C8 (confirmed). For every cache state and identifier already in
the lookup set, `remember_url` is a no-op: set, queue order, size all
unchanged, and nothing is evicted (the body is guarded by
`if url not in sent_news_urls`). -/
theorem C8_remember_idempotent {β : Type} [DecidableEq β] (c : DedupState β) (x : β)
    (hx : x ∈ c.sent_news_urls) : remember_url c x = c :=
  remember_mem c x hx

/-- Witness for C8 at a concrete state: re-remembering 7 right after
remembering it changes nothing. -/
theorem C8_remember_idempotent_witness :
    remember_url (remember_url (initialCache Nat) 7) 7
      = remember_url (initialCache Nat) 7 :=
  C8_remember_idempotent (remember_url (initialCache Nat) 7) 7 (by decide)

/-! ## Claim C9: set/queue correspondence invariant -/

/-- Claim C9 (confirmed). After every sequence of `remember_url` calls
starting from the empty cache: an identifier is in the lookup set iff it
is in the eviction queue, each identifier present occurs in the queue
exactly once, and the queue length never exceeds the configured
capacity 500 (it in fact stays at most 499). -/
theorem C9_invariant {β : Type} [DecidableEq β] (ids : List β) (x : β) :
    (x ∈ (rememberAll (initialCache β) ids).sent_news_urls ↔
      x ∈ (rememberAll (initialCache β) ids).sent_news_deque) ∧
    (x ∈ (rememberAll (initialCache β) ids).sent_news_deque →
      (rememberAll (initialCache β) ids).sent_news_deque.count x = 1) ∧
    (rememberAll (initialCache β) ids).sent_news_deque.length ≤ 500 := by
  obtain ⟨hset, hnd, hlen⟩ := cacheInv_rememberAll (initialCache β) ids cacheInv_initial
  have hm : (rememberAll (initialCache β) ids).maxlen = 500 :=
    rememberAll_maxlen (initialCache β) ids
  refine ⟨by rw [hset], fun hmem => List.count_eq_one_of_mem hnd hmem, by omega⟩

/-- Witness for C9 on the insert sequence `[3, 4, 3]`. -/
theorem C9_invariant_witness :
    (rememberAll (initialCache Nat) [3, 4, 3]).sent_news_deque.count 3 = 1 ∧
    (rememberAll (initialCache Nat) [3, 4, 3]).sent_news_deque.length ≤ 500 :=
  ⟨(C9_invariant [3, 4, 3] 3).2.1 (by decide), (C9_invariant [3, 4, 3] 3).2.2⟩

/-! ## Claim C6: the escaping contract of `safe_md` -/

/-- Claim C6 (confirmed). For every input string, in the output of
`safe_md` every character of the reserved MarkdownV2 punctuation set
(`_ * [ ] ( ) ~ ` > # + - = | { } . !`) is immediately preceded by a
backslash (scanner `escOkAux`), and no character is escaped twice in a
single application: the output contains exactly one inserted backslash
per reserved occurrence, i.e. the number of backslashes in the output is
the number already in the input plus the number of reserved
characters. -/
theorem C6_escaping (s : PyStr) :
    escOkAux none (safe_md s) = true ∧
    List.count '\\' (safe_md s) =
      List.count '\\' s + s.countP (fun c => decide (c ∈ reservedMd)) := by
  rw [safe_md_eq_flatMap]
  exact ⟨escOk_flatMap s none, count_backslash_flatMap s⟩

/-! ## Claim C3: case-insensitive keyword matching -/

/-- Claim C3 (code bug). The claim (and the list contents) intend
case-insensitive matching, but `classify_article` lowercases the article
text while comparing the crypto and economy keywords verbatim, so the
mixed-case keywords `DeFi` and `GDP` can never match: articles containing
`defi`/`DEFI`/`DeFi` or `gdp`/`GDP` all fall through to the default
`Other` category instead of `Crypto`/`Economic`. -/
theorem C3_case_insensitive_fails :
    "DeFi".data ∈ CRYPTO_KEYWORDS ∧ "GDP".data ∈ ECONOMY_KEYWORDS ∧
    classify_article ("DeFi".data) [] = "📰 *Other News*".data ∧
    classify_article ("DEFI".data) [] = "📰 *Other News*".data ∧
    classify_article ("defi".data) [] = "📰 *Other News*".data ∧
    classify_article ("GDP growth".data) [] = "📰 *Other News*".data ∧
    classify_article ("gdp growth".data) [] = "📰 *Other News*".data := by
  decide

/-! ## Claim C4: totality and rule priority of the classifier -/

/-- Claim C4 (confirmed). `classify_article` is a total function;
`classify("", "")` returns the default `Other` category; and whenever a
company name from the company list occurs (verbatim) in the article text
together with a crypto keyword, the company rule fires first and the
result is the Company category. -/
theorem C4_classifier_total_priority :
    classify_article [] [] = "📰 *Other News*".data ∧
    ∀ (title description company keyword : PyStr),
      company ∈ TOP_COMPANIES → keyword ∈ CRYPTO_KEYWORDS →
      company <:+: (title ++ [' '] ++ description) →
      keyword <:+: (title ++ [' '] ++ description) →
      classify_article title description = "🏢 *Top Company News*".data := by
  constructor
  · decide
  · intro title description company keyword hcm hkm hcs hks
    have hany : (TOP_COMPANIES.any fun company =>
        isSub (pyLower company) (pyLower (title ++ [' '] ++ description))) = true := by
      rw [List.any_eq_true]
      refine ⟨company, hcm, ?_⟩
      obtain ⟨u, v, huv⟩ := hcs
      simp only [isSub, decide_eq_true_eq]
      exact ⟨u.map Char.toLower, v.map Char.toLower, by rw [← huv]; simp [pyLower]⟩
    simp only [classify_article]
    rw [if_pos hany]

/-- Witness for C4: a title containing `Apple` and the crypto keyword
`bitcoin` is classified as Company news. -/
theorem C4_classifier_total_priority_witness :
    classify_article ("Apple".data) ("bitcoin up".data) = "🏢 *Top Company News*".data :=
  C4_classifier_total_priority.2 ("Apple".data) ("bitcoin up".data) ("Apple".data)
    ("bitcoin".data) (by decide) (by decide) (by decide) (by decide)

/-! ## Claim C2: one fetch per cycle, full fan-out -/

/-- Claim C2, counterexample. With two subscribers and a single fresh,
well-formed article, one scheduled cycle issues **two** API fetches (one
per subscriber, not "exactly once"), and only the first subscriber
receives a dispatch attempt: the article's URL is remembered during the
first subscriber's pass, so the second subscriber's pass skips it. -/
theorem C2_counterexample :
    (scheduled_cycle [1, 2] [goodArticle] (fun _ _ => true)
        (initialCache (Option PyStr))).2.countP Ev.isFetch = 2 ∧
    (scheduled_cycle [1, 2] [goodArticle] (fun _ _ => true)
        (initialCache (Option PyStr))).2.countP (Ev.isDispatchTo 1) = 1 ∧
    (scheduled_cycle [1, 2] [goodArticle] (fun _ _ => true)
        (initialCache (Option PyStr))).2.countP (Ev.isDispatchTo 2) = 0 := by
  decide

/-- Claim C2, amended. In every scheduled cycle the pipeline fetches from
the news API once **per subscriber** (`u` subscribers ⟹ `u` fetches,
for every subscriber list, batch, transport and cache state); and an
article that passes the checks is dispatched only to the first
subscriber whose pass meets it — once remembered, later subscribers of
the same cycle skip it, as the concrete two-subscriber run shows. -/
theorem C2_amended :
    (∀ (users : List Nat) (articles : List Article) (sendOk : Nat → PyStr → Bool)
        (c : DedupState (Option PyStr)),
      (scheduled_cycle users articles sendOk c).2.countP Ev.isFetch = users.length) ∧
    (scheduled_cycle [1, 2] [goodArticle] (fun _ _ => true)
        (initialCache (Option PyStr))).2.countP (Ev.isDispatchTo 1) = 1 ∧
    (scheduled_cycle [1, 2] [goodArticle] (fun _ _ => true)
        (initialCache (Option PyStr))).2.countP (Ev.isDispatchTo 2) = 0 := by
  refine ⟨?_, by decide, by decide⟩
  intro users articles sendOk c
  unfold scheduled_cycle
  rw [cycle_fetch_count_aux]
  simp

/-! ## Claim C5: intra-batch dedup of duplicate identifiers -/

/-- Claim C5, counterexample. The claim says that within one batch the
second of two articles with the same identifier never passes the
seen-check.  When the rich send of the first raises (it is delivered
only via the plain fallback), its URL is **not** remembered, and the
duplicate passes the seen-check too: a batch of the same article twice,
with a failing transport, produces two dispatch attempts. -/
theorem C5_counterexample :
    (send_daily_update 1 [goodArticle, goodArticle] (fun _ _ => false)
        (initialCache (Option PyStr))).2.countP (Ev.isDispatchTo 1) = 2 ∧
    (send_daily_update 1 [goodArticle, goodArticle] (fun _ _ => false)
        (initialCache (Option PyStr))).1 = initialCache (Option PyStr) := by
  decide

/-- Claim C5, amended. Within one batch the dedup cache is mutated at the
moment an article's rich send **succeeds**, so when two articles with
the same identifier occur in one batch — at any positions — and the
first one is accepted and its rich send succeeds, the second never
passes the seen-check, provided the first's identifier is not evicted in
between (guaranteed whenever the queue depth plus the number of
intervening articles stays below the capacity, as for any real fetch of
at most 20 articles): processing the duplicate is a no-op. -/
theorem C5_amended (chat : Nat) (sendOk : Nat → PyStr → Bool)
    (c : DedupState (Option PyStr)) (evs : List Ev) (a a' : Article)
    (mid : List Article)
    (hurl : a'.url = a.url)
    (hseen : a.url ∉ c.sent_news_urls)
    (hb : BANNED_SOURCES.any (fun bad => isSub bad (pyLower (source_raw a))) = false)
    (hcat : classify_article (title_raw a) (description_raw a) ∈ ALLOWED_CATEGORIES)
    (hw : ¬ (words_of a).length < 10)
    (hsend : sendOk chat (message_of a) = true)
    (hroom : c.sent_news_deque.length + 1 + mid.length < c.maxlen) :
    processArticle chat sendOk
        (List.foldl (processArticle chat sendOk)
          (processArticle chat sendOk (c, evs) a) mid) a'
      = List.foldl (processArticle chat sendOk)
          (processArticle chat sendOk (c, evs) a) mid := by
  have hstep : processArticle chat sendOk (c, evs) a
      = (remember_url c a.url, evs ++ [Ev.sentRich chat (message_of a)]) :=
    processArticle_accept chat sendOk c evs a hseen hb hcat hw hsend
  have hrem := remember_fresh_small c a.url hseen (by omega)
  have hmono := fold_cache_mono chat sendOk mid
      (processArticle chat sendOk (c, evs) a) a.url
      (by rw [hstep]; exact remember_self_mem c a.url (by omega))
      (by rw [hstep]
          show (remember_url c a.url).sent_news_deque.length + mid.length
            < (remember_url c a.url).maxlen
          rw [hrem]
          simp
          omega)
  exact processArticle_skip_seen chat sendOk _ a' (by rw [hurl]; exact hmono.1)

/-- Witness for C5 at a concrete input: the duplicate of `goodArticle`
immediately after a successful send is skipped. -/
theorem C5_amended_witness :
    processArticle 1 (fun _ _ => true)
        (List.foldl (processArticle 1 (fun _ _ => true))
          (processArticle 1 (fun _ _ => true) ((initialCache (Option PyStr)), [])
            goodArticle) [])
        goodArticle
      = List.foldl (processArticle 1 (fun _ _ => true))
          (processArticle 1 (fun _ _ => true) ((initialCache (Option PyStr)), [])
            goodArticle) [] :=
  C5_amended 1 (fun _ _ => true) (initialCache (Option PyStr)) [] goodArticle goodArticle
    [] rfl (by decide) (by decide) (by decide) (by decide) rfl (by decide)

/-! ## Claim C7: the structure of the formatted message -/

/-- Claim C7, counterexample. The message dispatched for an accepted
article contains no link reference: the article's URL
(`https://x/1`) does not occur in the message text at all (it is used
only as the dedup key). -/
theorem C7_counterexample :
    (send_daily_update 1 [goodArticle] (fun _ _ => true)
        (initialCache (Option PyStr))).2
      = [Ev.fetched, Ev.sentRich 1 (message_of goodArticle)] ∧
    goodArticle.url = some ("https://x/1".data) ∧
    isSub ("https://x/1".data) (message_of goodArticle) = false := by
  decide

/-- Claim C7, amended. Every formatted message body is a structured text
block consisting of a category/origin tag line, a title line, a
source-plus-timestamp line, and a truncated summary — the first 100
words, with the ellipsis marker exactly when the body exceeds 100
words — but **no** link reference to the article. -/
theorem C7_amended (a : Article) :
    summary_raw_of a
      = (if (words_of a).length ≤ 100 then spaceJoin (words_of a)
         else spaceJoin ((words_of a).take 100) ++ "...".data) ∧
    (∃ u, message_of a
        = origin_flag_of a ++ " ".data
            ++ safe_md (classify_article (title_raw a) (description_raw a)) ++ u) ∧
    (∃ u v, message_of a = u ++ safe_md (title_raw a) ++ v) ∧
    (∃ u v, message_of a
        = u ++ safe_md (source_raw a) ++ "_ \\| 🕒 ".data ++ published_time_of a ++ v) ∧
    (∃ u, message_of a = u ++ "\n\n🧠 *Summary:* ".data ++ safe_md (summary_raw_of a)) := by
  refine ⟨?_, ?_, ?_, ?_, ?_⟩
  · by_cases h : (words_of a).length ≤ 100
    · rw [if_pos h]
      unfold summary_raw_of
      rw [List.take_of_length_le h, if_neg (by omega)]
      simp
    · rw [if_neg h]
      unfold summary_raw_of
      rw [if_pos (by omega)]
  · exact ⟨"\n📌 *".data ++ safe_md (title_raw a) ++ "*\n📰 _".data
      ++ safe_md (source_raw a) ++ "_ \\| 🕒 ".data ++ published_time_of a
      ++ "\n\n🧠 *Summary:* ".data ++ safe_md (summary_raw_of a),
      by simp [message_of, List.append_assoc]⟩
  · exact ⟨origin_flag_of a ++ " ".data
      ++ safe_md (classify_article (title_raw a) (description_raw a)) ++ "\n📌 *".data,
      "*\n📰 _".data ++ safe_md (source_raw a) ++ "_ \\| 🕒 ".data ++ published_time_of a
        ++ "\n\n🧠 *Summary:* ".data ++ safe_md (summary_raw_of a),
      by simp [message_of, List.append_assoc]⟩
  · exact ⟨origin_flag_of a ++ " ".data
      ++ safe_md (classify_article (title_raw a) (description_raw a)) ++ "\n📌 *".data
      ++ safe_md (title_raw a) ++ "*\n📰 _".data,
      "\n\n🧠 *Summary:* ".data ++ safe_md (summary_raw_of a),
      by simp [message_of, List.append_assoc]⟩
  · exact ⟨origin_flag_of a ++ " ".data
      ++ safe_md (classify_article (title_raw a) (description_raw a)) ++ "\n📌 *".data
      ++ safe_md (title_raw a) ++ "*\n📰 _".data ++ safe_md (source_raw a)
      ++ "_ \\| 🕒 ".data ++ published_time_of a,
      by simp [message_of, List.append_assoc]⟩

/-! ## Claim C10: remembering happens iff the rich send succeeds -/

/-- Claim C10 (confirmed). For an article that reaches the send step, its
URL is added to the dedup cache iff the rich MarkdownV2 send succeeds:
on success the URL is remembered and a rich dispatch is recorded; when
the rich send raises, the article is delivered only via the plain-text
fallback, nothing is remembered, and re-processing the same article
against the resulting state dispatches it again. -/
theorem C10_remember_iff_send (chat : Nat) (sendOk : Nat → PyStr → Bool)
    (c : DedupState (Option PyStr)) (evs : List Ev) (a : Article)
    (hseen : a.url ∉ c.sent_news_urls)
    (hb : BANNED_SOURCES.any (fun bad => isSub bad (pyLower (source_raw a))) = false)
    (hcat : classify_article (title_raw a) (description_raw a) ∈ ALLOWED_CATEGORIES)
    (hw : ¬ (words_of a).length < 10)
    (hroom : c.sent_news_deque.length + 1 < c.maxlen) :
    (a.url ∈ (processArticle chat sendOk (c, evs) a).1.sent_news_urls ↔
      sendOk chat (message_of a) = true) ∧
    (sendOk chat (message_of a) = true →
      processArticle chat sendOk (c, evs) a
        = (remember_url c a.url, evs ++ [Ev.sentRich chat (message_of a)])) ∧
    (sendOk chat (message_of a) = false →
      processArticle chat sendOk (c, evs) a
        = (c, evs ++ [Ev.sentFallback chat (fallback_of a)]) ∧
      processArticle chat sendOk (c, evs ++ [Ev.sentFallback chat (fallback_of a)]) a
        = (c, (evs ++ [Ev.sentFallback chat (fallback_of a)])
            ++ [Ev.sentFallback chat (fallback_of a)])) := by
  by_cases hs : sendOk chat (message_of a) = true
  · have hacc := processArticle_accept chat sendOk c evs a hseen hb hcat hw hs
    refine ⟨?_, fun _ => hacc,
      fun hf => absurd hs (by rw [hf]; exact Bool.false_ne_true)⟩
    rw [hacc]
    exact ⟨fun _ => hs, fun _ => remember_self_mem c a.url hroom⟩
  · have hsf : sendOk chat (message_of a) = false := by
      cases h : sendOk chat (message_of a)
      · rfl
      · exact absurd h hs
    have hfb := processArticle_fallback chat sendOk c evs a hseen hb hcat hw hsf
    refine ⟨?_, fun ht => absurd ht hs, fun _ => ⟨hfb, ?_⟩⟩
    · rw [hfb]
      exact ⟨fun hmem => absurd hmem hseen, fun ht => absurd ht hs⟩
    · exact processArticle_fallback chat sendOk c
        (evs ++ [Ev.sentFallback chat (fallback_of a)]) a hseen hb hcat hw hsf

/-- Witness for C10 with an always-failing transport: the URL is not
remembered and the fallback event is recorded. -/
theorem C10_remember_iff_send_witness :
    goodArticle.url
        ∉ (processArticle 1 (fun _ _ => false)
            ((initialCache (Option PyStr)), []) goodArticle).1.sent_news_urls ∧
    processArticle 1 (fun _ _ => false) ((initialCache (Option PyStr)), []) goodArticle
      = ((initialCache (Option PyStr)),
          [] ++ [Ev.sentFallback 1 (fallback_of goodArticle)]) := by
  have h := C10_remember_iff_send 1 (fun _ _ => false) (initialCache (Option PyStr)) []
      goodArticle (by decide) (by decide) (by decide) (by decide) (by decide)
  exact ⟨fun hmem => Bool.false_ne_true (h.1.mp hmem), (h.2.2 rfl).1⟩
